import Mathlib

/-!
Shallow embedding of the au-powerball-stats repository (src/app/scraper.py,
src/app/scaper.py, src/app/db.py, src/app/app.py) used to settle the claims
of the specification against the code.  Pure Python functions become Lean
functions; the sqlite table becomes an explicit list of rows; fallible code
returns Option or Except; functions whose behaviour depends on the network
are parameterised by the outcome of each network step.  Python string
manipulation is carried out on the underlying character lists so that every
definition evaluates inside the kernel.
-/

set_option maxRecDepth 100000

deriving instance DecidableEq for Except

/-- Canonical draw record / stored row (scraper.py draw dicts and the
columns of the draws table in db.py).  Python integers are modelled as Int,
the ISO date string as String. -/
structure Row where
  draw_no : Int
  draw_date : String
  nums : List Int
  pb : Int
  source_url : String
deriving DecidableEq

/-! ### Python string helpers over character lists -/

/-- Whitespace recognised by str.strip / the strptime whitespace directive
(space, tab, newline, carriage return). -/
def isSpaceChar (c : Char) : Bool :=
  c == ' ' || c == '\t' || c == '\n' || c == '\r'

/-- str.strip(): drop leading and trailing whitespace. -/
def pyStrip (l : List Char) : List Char :=
  ((l.dropWhile isSpaceChar).reverse.dropWhile isSpaceChar).reverse

/-- str.split(sep) for a one-character separator: "a-b".split("-") gives
["a","b"], and "".split("-") gives [""]. -/
def splitOnChar (c : Char) : List Char → List (List Char)
  | [] => [[]]
  | x :: xs =>
    let r := splitOnChar c xs
    if x == c then [] :: r
    else
      match r with
      | [] => [[x]]
      | t :: ts => (x :: t) :: ts

/-- str.lower() on a character list. -/
def lowerChars (l : List Char) : List Char := l.map Char.toLower

/-- Numeric value of a list of decimal digit characters. -/
def digitsVal (l : List Char) : Nat :=
  l.foldl (fun acc c => acc * 10 + (c.toNat - 48)) 0

/-! ### Date handling: model of datetime.strptime / date.isoformat as used
by `_try_parse_date` (scraper.py lines 45-60) and `_parse_rows`
(scaper.py line 31). -/

/-- Gregorian leap-year rule used by datetime. -/
def isLeap (y : Nat) : Bool :=
  (y % 4 == 0 && y % 100 != 0) || (y % 400 == 0)

/-- Number of days of month m in year y (datetime calendar). -/
def daysInMonth (y m : Nat) : Nat :=
  if m = 2 then (if isLeap y then 29 else 28)
  else if m = 4 || m = 6 || m = 9 || m = 11 then 30
  else 31

/-- A date accepted by the datetime constructor: year in [1,9999], valid
month and day-of-month. -/
def validDate (y m d : Nat) : Bool :=
  1 ≤ y && y ≤ 9999 && 1 ≤ m && m ≤ 12 && 1 ≤ d && d ≤ daysInMonth y m

/-- A plain year-month-day triple. -/
structure SimpleDate where
  y : Nat
  m : Nat
  d : Nat
deriving DecidableEq

/-- datetime.date construction: succeeds exactly on valid calendar dates,
raising ValueError (modelled as none) otherwise; strptime propagates that
ValueError to its caller. -/
def mkDate (y m d : Nat) : Option SimpleDate :=
  if validDate y m d then some ⟨y, m, d⟩ else none

/-- Two-digit zero-padded rendering (isoformat month and day). -/
def pad2 (n : Nat) : List Char :=
  [Nat.digitChar (n / 10 % 10), Nat.digitChar (n % 10)]

/-- Four-digit zero-padded rendering (isoformat year; datetime years stay
within [1,9999]). -/
def pad4 (n : Nat) : List Char :=
  [Nat.digitChar (n / 1000 % 10), Nat.digitChar (n / 100 % 10),
   Nat.digitChar (n / 10 % 10), Nat.digitChar (n % 10)]

/-- date.isoformat(): YYYY-MM-DD. -/
def isoOfDate (dt : SimpleDate) : String :=
  String.mk (pad4 dt.y ++ '-' :: pad2 dt.m ++ '-' :: pad2 dt.d)

/-- A token of one to `maxLen` digits, as matched by the strptime patterns
for the day and month directives. -/
def parseNumUpTo (maxLen : Nat) (tok : List Char) : Option Nat :=
  if 1 ≤ tok.length && tok.length ≤ maxLen && tok.all Char.isDigit
  then some (digitsVal tok) else none

/-- The strptime Y directive: exactly four digits. -/
def parseYear4 (tok : List Char) : Option Nat :=
  if tok.length == 4 && tok.all Char.isDigit then some (digitsVal tok)
  else none

/-- Full month names of the C locale, lowercase (strptime matching is
case-insensitive). -/
def monthFullNames : List (List Char) :=
  ["january".data, "february".data, "march".data, "april".data, "may".data,
   "june".data, "july".data, "august".data, "september".data,
   "october".data, "november".data, "december".data]

/-- Abbreviated month names of the C locale, lowercase. -/
def monthAbbrevNames : List (List Char) :=
  ["jan".data, "feb".data, "mar".data, "apr".data, "may".data, "jun".data,
   "jul".data, "aug".data, "sep".data, "oct".data, "nov".data, "dec".data]

/-- Full weekday names, lowercase (the A directive parses but does not
cross-validate the weekday against the date). -/
def dayFullNames : List (List Char) :=
  ["monday".data, "tuesday".data, "wednesday".data, "thursday".data,
   "friday".data, "saturday".data, "sunday".data]

/-- Abbreviated weekday names, lowercase. -/
def dayAbbrevNames : List (List Char) :=
  ["mon".data, "tue".data, "wed".data, "thu".data, "fri".data, "sat".data,
   "sun".data]

/-- Look a (case-normalised) name up in a month or weekday table, returning
its one-based index. -/
def nameIdx (tbl : List (List Char)) (tok : List Char) : Option Nat :=
  (tbl.findIdx? (fun x => x == lowerChars tok)).map (· + 1)

/-- Whitespace-separated fields of a string (strptime treats a space in the
format as one-or-more whitespace characters in the input). -/
def words (l : List Char) : List (List Char) :=
  (splitOnChar ' ' l).filter (fun w => !w.isEmpty)

/-- Model of strptime with format Y-m-d (ISO), the first format tried by
`_try_parse_date`. -/
def parseIsoYmd (s : List Char) : Option SimpleDate :=
  match splitOnChar '-' s with
  | [ys, ms, ds] =>
    match parseYear4 ys, parseNumUpTo 2 ms, parseNumUpTo 2 ds with
    | some y, some m, some d => mkDate y m d
    | _, _, _ => none
  | _ => none

/-- The month token of a day / month-name / year format: when the format
puts a comma right after the month name, the token must end in a comma,
which is stripped. -/
def monthToken (comma : Bool) (mTok : List Char) : Option (List Char) :=
  if comma then
    (match mTok.getLast? with
     | some ',' => some (mTok.dropLast)
     | _ => none)
  else some mTok

/-- Model of strptime with the day / month-name / year formats of
`_try_parse_date`: the month table selects full or abbreviated names and
`comma` states whether the format puts a comma right after the month. -/
def parseDayMonthYear (monthTbl : List (List Char)) (comma : Bool)
    (s : List Char) : Option SimpleDate :=
  match words s with
  | [dTok, mTok, yTok] =>
    match parseNumUpTo 2 dTok, monthToken comma mTok with
    | some d, some mn =>
      match nameIdx monthTbl mn, parseYear4 yTok with
      | some m, some y => mkDate y m d
      | _, _ => none
    | _, _ => none
  | _ => none

/-- Model of strptime with a leading weekday-name directive followed by
day / month-name / year (the last two formats of `_try_parse_date`); the
weekday name must be in the table but its value is otherwise ignored. -/
def parseWeekdayDayMonthYear (dayTbl monthTbl : List (List Char))
    (s : List Char) : Option SimpleDate :=
  match words s with
  | [wTok, dTok, mTok, yTok] =>
    match nameIdx dayTbl wTok, parseNumUpTo 2 dTok with
    | some _, some d =>
      match nameIdx monthTbl mTok, parseYear4 yTok with
      | some m, some y => mkDate y m d
      | _, _ => none
    | _, _ => none
  | _ => none

/-- First successful parse of a list of attempts (the for-loop over the
formats in `_try_parse_date`, where an unsuccessful strptime raises
ValueError and the loop continues). -/
def firstSome : List (Option SimpleDate) → Option SimpleDate
  | [] => none
  | some d :: _ => some d
  | none :: rest => firstSome rest

/-- Embeds `_try_parse_date` (scraper.py lines 45-60) on a character list:
strip the input, try the seven formats in order, return the first
successful parse rendered with isoformat, and none when every format
raises ValueError. -/
def try_parse_date_chars (s : List Char) : Option String :=
  let t := pyStrip s
  (firstSome
    [parseIsoYmd t,
     parseDayMonthYear monthFullNames true t,
     parseDayMonthYear monthFullNames false t,
     parseDayMonthYear monthAbbrevNames true t,
     parseDayMonthYear monthAbbrevNames false t,
     parseWeekdayDayMonthYear dayFullNames monthFullNames t,
     parseWeekdayDayMonthYear dayAbbrevNames monthAbbrevNames t]).map
    isoOfDate

/-- `_try_parse_date` on a Lean string. -/
def try_parse_date (s : String) : Option String :=
  try_parse_date_chars s.data

/-! ### db.py: the draws table, get_draws and get_frequencies -/

/-- Lexicographic strict comparison of character lists: the ordering of
Python and SQLite strings. -/
def charListLt : List Char → List Char → Bool
  | [], [] => false
  | [], _ :: _ => true
  | _ :: _, [] => false
  | a :: as, b :: bs =>
    if a.toNat < b.toNat then true
    else if b.toNat < a.toNat then false
    else charListLt as bs

/-- String strict comparison through the character lists. -/
def strLtB (a b : String) : Bool := charListLt a.data b.data

/-- Comparison used by the ORDER BY clause of get_draws (db.py line 65):
date(draw_date) descending, then draw_no descending.  rowOrder a b states
that a sorts no later than b.  On the ISO date strings produced by the
parsers, SQLite date() is the identity and its ordering is the string
ordering. -/
def rowOrder (a b : Row) : Prop :=
  strLtB b.draw_date a.draw_date = true ∨
    (b.draw_date = a.draw_date ∧ b.draw_no ≤ a.draw_no)

instance : DecidableRel rowOrder := fun a b => by
  unfold rowOrder; infer_instance

/-- Embeds get_draws (db.py lines 64-73): all rows ordered newest first,
with LIMIT applied only when the Python limit argument is truthy (None and
0 both mean no limit). -/
def get_draws (db : List Row) (limit : Option Nat) : List Row :=
  let sorted := List.insertionSort rowOrder db
  match limit with
  | some l => if l = 0 then sorted else sorted.take l
  | none => sorted

/-- A Python value stored in one of the row dicts produced by db.get_draws
(an int, a string, or a list of ints). -/
inductive PyVal where
  | int (v : Int)
  | str (s : String)
  | ivals (l : List Int)
deriving DecidableEq

/-- The dict built for one row by get_draws (db.py line 72): note the keys,
in particular that the secondary is stored under the key "powerball". -/
def rowToDict (r : Row) : List (String × PyVal) :=
  [("draw_no", PyVal.int r.draw_no), ("draw_date", PyVal.str r.draw_date),
   ("nums", PyVal.ivals r.nums), ("powerball", PyVal.int r.pb)]

/-- dict.get(key): first binding of the key, none when absent. -/
def dictGet (d : List (String × PyVal)) (k : String) : Option PyVal :=
  d.lookup k

/-- get_draws as seen by app.py: the list of row dicts. -/
def get_draws_dicts (db : List Row) (limit : Option Nat) :
    List (List (String × PyVal)) :=
  (get_draws db limit).map rowToDict

/-- The contiguous integers a, a+1, ..., a+n-1 as Int keys. -/
def intRange (a n : Nat) : List Int :=
  List.map (fun i => Int.ofNat i) (List.range' a n)

/-- Return value of get_frequencies: the two frequency dicts (as
association lists in key order 1..35 and 1..20) and the sample size. -/
structure Freqs where
  main : List (Int × Nat)
  powerball : List (Int × Nat)
  sample_size : Nat
deriving DecidableEq

/-- The frequency tables over a set of rows (db.py lines 84-95): the main
dict is initialised with keys 1..35 and each in-range value occurring in a
row column n1..n7 bumps its key, so the count at key n is the number of
occurrences of n over the mains of the rows; similarly for powerball over keys
1..20; sample_size is COUNT(*) over the same rows. -/
def freqTableOf (rows : List Row) : Freqs :=
  ⟨(intRange 1 35).map (fun n => (n, ((rows.map Row.nums).flatten).count n)),
   (intRange 1 20).map (fun n => (n, (rows.map Row.pb).count n)),
   rows.length⟩

/-- Embeds get_frequencies (db.py lines 75-97): with a truthy window the
rows considered are those whose draw_no appears among the first `window`
rows of get_draws (SQLite accepts an empty IN () list, matching nothing);
otherwise all rows are considered. -/
def get_frequencies (db : List Row) (window : Option Nat) : Freqs :=
  match window with
  | some w =>
    if w = 0 then freqTableOf db
    else
      let ids := (get_draws db (some w)).map Row.draw_no
      freqTableOf (db.filter (fun r => ids.contains r.draw_no))
  | none => freqTableOf db

/-! ### scraper.py: the fetch helper `_http_get` (lines 63-76) -/

/-- Result of one requests.get attempt: a body on success, an exception
otherwise (timeouts, transport failures and raise_for_status all surface as
exceptions). -/
inductive FetchOutcome where
  | ok (text : String)
  | err (e : String)
deriving DecidableEq

/-- The retry loop of `_http_get` parameterised by the per-attempt
outcomes: `attempt` is the one-based loop counter and `rem` the number of
attempts still allowed (so `attempt < RETRIES` holds exactly when
`rem > 1`).  The returned pair is the list of sleep durations issued, in
order, and the final result; the error branch with no recorded exception
(the RuntimeError at line 76) is only reachable with a zero attempt
budget. -/
def http_get_loop (backoff : Nat) (o : Nat → FetchOutcome) :
    Nat → Nat → List Nat × Except String String
  | _, 0 => ([], Except.error "GET failed")
  | attempt, rem + 1 =>
    match o attempt with
    | FetchOutcome.ok t => ([], Except.ok t)
    | FetchOutcome.err e =>
      match rem with
      | 0 => ([], Except.error e)
      | _ + 1 =>
        let r := http_get_loop backoff o (attempt + 1) rem
        (backoff * attempt :: r.1, r.2)

/-- Embeds `_http_get` with the module constants RETRIES = 3 and
RETRY_BACKOFF = 3: up to three attempts starting at attempt 1, sleeping
RETRY_BACKOFF * attempt seconds after a failed attempt that is not the
last, and re-raising the last error once all attempts fail. -/
def http_get (o : Nat → FetchOutcome) : List Nat × Except String String :=
  http_get_loop 3 o 1 3

/-- The complete observable behaviour of `_http_get` as a case table over
the three attempt outcomes: sleeps happen only between attempts, follow
the linear schedule 3, 6, and the last error is surfaced. -/
def http_get_table :
    FetchOutcome → FetchOutcome → FetchOutcome →
      List Nat × Except String String
  | FetchOutcome.ok t, _, _ => ([], Except.ok t)
  | FetchOutcome.err _, FetchOutcome.ok t, _ => ([3], Except.ok t)
  | FetchOutcome.err _, FetchOutcome.err _, FetchOutcome.ok t =>
    ([3, 6], Except.ok t)
  | FetchOutcome.err _, FetchOutcome.err _, FetchOutcome.err e =>
    ([3, 6], Except.error e)

/-- Modelled from the spec: "Performs up to N attempts (N configurable,
default 3) with exponentially-spaced backoff sleeps between attempts
(default base 3 time-units, attempt-indexed)" — an attempt-indexed
exponential schedule with base 3 puts the sleep after failed attempt i at
3 ^ i time-units. -/
def exp_backoff_sleeps (base attempts : Nat) : List Nat :=
  (List.range' 1 attempts).map (fun i => base ^ i)

/-! ### scraper.py: the JSON API parser `_to_draw_dict_from_api`
(lines 136-194) -/

/-- A Python value sitting in one of the powerball-ish fields of an API
object: absent (None), a scalar, or a list (SupplementaryNumbers). -/
inductive PbField where
  | missing
  | scalar (v : Int)
  | vlist (vs : List Int)
deriving DecidableEq

/-- One object of the API response, restricted to the fields the parser
reads.  Numeric fields carry native integers and number lists carry native
integer lists; the string-encoded "1,2,3" form of the mains (normalised at
line 159) is outside the input space of the model. -/
structure ApiObj where
  productId : Option String
  productType : Option String
  product : Option String
  drawNumber : Option Int
  drawNo : Option Int
  drawId : Option Int
  drawDate : Option String
  drawDateTime : Option String
  openDate : Option String
  primaryNumbers : Option (List Int)
  winningNumbers : Option (List Int)
  numbers : Option (List Int)
  powerballNumber : PbField
  powerballAlt : PbField
  supplementaryNumbers : PbField
deriving DecidableEq

/-- Python `a or b` on optional strings: keeps a when it is truthy (present
and non-empty). -/
def pyOrStr (a b : Option String) : Option String :=
  match a with
  | some s => if s = "" then b else some s
  | none => b

/-- Python `a or b` on optional integers: keeps a when it is truthy
(present and non-zero). -/
def pyOrInt (a b : Option Int) : Option Int :=
  match a with
  | some v => if v = 0 then b else some v
  | none => b

/-- Python `a or b` on optional integer lists: keeps a when it is truthy
(present and non-empty). -/
def pyOrList (a b : Option (List Int)) : Option (List Int) :=
  match a with
  | some l => if l = [] then b else some l
  | none => b

/-- Python truthiness of a powerball-ish field. -/
def pbTruthy : PbField → Bool
  | PbField.missing => false
  | PbField.scalar v => v != 0
  | PbField.vlist vs => !vs.isEmpty

/-- Python `a or b` on powerball-ish fields. -/
def pyOrPb (a b : PbField) : PbField :=
  if pbTruthy a then a else b

/-- Lines 166-170 of `_to_draw_dict_from_api`: when the powerball value is
literally None and exactly eight mains are present, the eighth main becomes
the powerball and the mains are trimmed to seven. -/
def apiEighthFallback (main : List Int) (pb : PbField) :
    List Int × PbField :=
  match pb with
  | PbField.missing =>
    if main.length = 8 then
      (main.take 7,
       match main.getLast? with
       | some v => PbField.scalar v
       | none => PbField.missing)
    else (main, PbField.missing)
  | x => (main, x)

/-- Lines 166-194 of `_to_draw_dict_from_api`: the 8th-number-as-powerball
fallback, the shape check (exactly 7 mains and a scalar powerball), the
range checks, and the final truthiness checks on draw number and date.  A
None draw number and a zero draw number are equally falsy, so the
draw-number alias chain is taken to deliver none in both cases. -/
def apiFinalize (draw_no : Option Int) (date_iso : Option String)
    (main : List Int) (pb : PbField) : Option Row :=
  match apiEighthFallback main pb with
  | (main2, PbField.scalar pbv) =>
    if main2.length = 7 ∧ 1 ≤ pbv ∧ pbv ≤ 20 ∧
        main2.all (fun n => decide (1 ≤ n) && decide (n ≤ 35)) = true then
      match draw_no, date_iso with
      | some dn, some di => some ⟨dn, di, main2, pbv, "thelott-api"⟩
      | _, _ => none
    else none
  | _ => none

/-- Embeds `_to_draw_dict_from_api` (scraper.py lines 136-194): resolve the
product type, draw number, date, mains and powerball through their alias
chains with Python truthiness, normalise a single-element powerball list to
its head, then validate through apiFinalize. -/
def to_draw_dict_from_api (obj : ApiObj) : Option Row :=
  let product :=
    (pyOrStr obj.productId (pyOrStr obj.productType obj.product)).getD ""
  if lowerChars product.data = "powerball".data then
    let draw_no := pyOrInt obj.drawNumber (pyOrInt obj.drawNo obj.drawId)
    let draw_date_raw :=
      pyOrStr obj.drawDate (pyOrStr obj.drawDateTime obj.openDate)
    let date_iso :=
      match draw_date_raw with
      | some s =>
        (match try_parse_date_chars ((splitOnChar 'T' s.data).headD s.data)
         with
         | some d => some d
         | none => try_parse_date_chars s.data)
      | none => none
    let main :=
      (pyOrList obj.primaryNumbers
        (pyOrList obj.winningNumbers obj.numbers)).getD []
    let pb0 :=
      pyOrPb obj.powerballNumber
        (pyOrPb obj.powerballAlt obj.supplementaryNumbers)
    let pb1 :=
      match pb0 with
      | PbField.vlist (v :: _) => PbField.scalar v
      | x => x
    apiFinalize draw_no date_iso main pb1
  else none

/-- An API object carrying a duplicated main number; used to exercise the
missing distinctness check. -/
def apiDupObj : ApiObj :=
  ⟨some "Powerball", none, none, some 1, none, none, some "2024-01-01",
   none, none, some [1, 1, 2, 3, 4, 5, 6], none, none, PbField.scalar 7,
   PbField.missing, PbField.missing⟩

/-! ### scraper.py: sort-and-dedup postprocessing of the API fetchers
(lines 120-128 and 259-267) -/

/-- Ascending draw-number comparison used by `items.sort(key=...)` and
`sorted(items, key=...)`; both Python sorts are stable, as is
List.insertionSort with this relation. -/
def drawNoLe (a b : Row) : Prop := a.draw_no ≤ b.draw_no

instance : DecidableRel drawNoLe := fun a b =>
  inferInstanceAs (Decidable (a.draw_no ≤ b.draw_no))

instance : IsTotal Row drawNoLe :=
  ⟨fun a b => Int.le_total a.draw_no b.draw_no⟩

instance : IsTrans Row drawNoLe :=
  ⟨fun _ _ _ h1 h2 => le_trans h1 h2⟩

/-- The first-occurrence-wins dedup loop over a seen-set of draw
numbers. -/
def dedupGo (seen : List Int) : List Row → List Row
  | [] => []
  | x :: xs =>
    if seen.contains x.draw_no then dedupGo seen xs
    else x :: dedupGo (x.draw_no :: seen) xs

/-- Stable ascending sort by draw number followed by first-occurrence
dedup: the common postprocessing of both API fetchers. -/
def sort_dedup_by_draw_no (items : List Row) : List Row :=
  dedupGo [] (List.insertionSort drawNoLe items)

/-- Embeds the tail of `_api_fetch_range_by_date` (scraper.py lines
259-267) as a function of the records accumulated from the three POST
attempts. -/
def api_fetch_range_post (items : List Row) : List Row :=
  sort_dedup_by_draw_no items

/-- Embeds the tail of `_api_fetch_productdraws` (scraper.py lines
120-128) as a function of the filtered records parsed from the feed. -/
def api_fetch_productdraws_post (items : List Row) : List Row :=
  sort_dedup_by_draw_no items

/-! ### scraper.py: the HTML block parser `_parse_block` and its number
extractors (lines 302-348) -/

/-- `_extract_8_from_ul` as a function of the integer tokens of the list
items of the following ul element (none when there is no such element):
exactly eight tokens or nothing. -/
def extract_8_from_ul (lis : Option (List Int)) : Option (List Int) :=
  match lis with
  | none => none
  | some nums => if nums.length = 8 then some nums else none

/-- The plausibility test of `_extract_8_from_near` (line 317): last token
at most 20 and the first seven all in [1,35]. -/
def plausible8 (w : List Int) : Bool :=
  match w.getLast? with
  | some last =>
    decide (last ≤ 20) &&
      w.dropLast.all (fun n => decide (1 ≤ n) && decide (n ≤ 35))
  | none => false

/-- The sliding-window loop of `_extract_8_from_near`: the first contiguous
8-token window satisfying the plausibility test. -/
def scanWindows (cand : List Int) : Option (List Int) :=
  if cand.length < 8 then none
  else if plausible8 (cand.take 8) then some (cand.take 8)
  else scanWindows cand.tail
termination_by cand.length
decreasing_by
  simp only [List.length_tail]; omega

/-- `_extract_8_from_near` (lines 310-319) as a function of the integer
tokens found in the bounded text slice: first plausible window, else the
first eight tokens as a last resort, else nothing. -/
def extract_8_from_near (cand : List Int) : Option (List Int) :=
  match scanWindows cand with
  | some w => some w
  | none => if cand.length ≥ 8 then some (cand.take 8) else none

/-- Line 334 of `_parse_block`: the ul extraction, or on failure the
near-text extraction. -/
def blockNums (ulNums : Option (List Int)) (nearCand : List Int) :
    Option (List Int) :=
  match extract_8_from_ul ulNums with
  | some v => some v
  | none => extract_8_from_near nearCand

/-- Lines 335-348 of `_parse_block`: require exactly eight numbers, split
them into seven mains and the powerball, and apply the range checks. -/
def blockFinalize (draw_no : Int) (dd : String) (nums : Option (List Int))
    (source_url : String) : Option Row :=
  match nums with
  | none => none
  | some ns =>
    if ns.length = 8 then
      if 1 ≤ ns.getD 7 0 ∧ ns.getD 7 0 ≤ 20 ∧
          (ns.take 7).all (fun n => decide (1 ≤ n) && decide (n ≤ 35)) =
            true
      then some ⟨draw_no, dd, ns.take 7, ns.getD 7 0, source_url⟩
      else none
    else none

/-- Embeds `_parse_block` (scraper.py lines 322-348) as a function of the
text-level extraction results: the integer captured by the draw-number
regex, the substring captured by the date regex, the integer tokens of the
following ul element, and the integer tokens of the near-text slice. -/
def parse_block (mNo : Option Int) (mDate : Option String)
    (ulNums : Option (List Int)) (nearCand : List Int)
    (source_url : String) : Option Row :=
  match mNo with
  | none => none
  | some draw_no =>
    match
      (match mDate with
       | some s => try_parse_date s
       | none => none) with
    | none => none
    | some dd => blockFinalize draw_no dd (blockNums ulNums nearCand) source_url

/-! ### scaper.py: the row parser `_parse_rows` (lines 21-50) -/

/-- A Python exception relevant to the embedded control flow. -/
inductive PyError where
  | nameError (n : String)
  | valueError
deriving DecidableEq

/-- Embeds the per-anchor body of `_parse_rows` (scaper.py lines 30-49) as
a function of the regex captures and the extracted number tokens: the
strptime call at line 31 is outside any try block, so an unparseable month
name or invalid calendar date raises ValueError out of the whole parse;
otherwise a token list of length other than eight is skipped and any other
list is turned into a record with no range checks at all. -/
def parse_rows_item (draw_no : Int) (dateTok : String) (nums : List Int)
    (source_url : String) : Except PyError (Option Row) :=
  match parseDayMonthYear monthFullNames true dateTok.data with
  | none => Except.error PyError.valueError
  | some dt =>
    if nums.length ≠ 8 then Except.ok none
    else
      Except.ok
        (some ⟨draw_no, isoOfDate dt, nums.take 7, nums.getD 7 0,
          source_url⟩)

/-! ### scraper.py: the public resolution chain (lines 389-484) and the
orchestrator `sync_all` (lines 487-526) -/

/-- The names bound at the top level of scraper.py, in definition order
(the first fetch_year definition at line 389 is shadowed by the second at
line 468). -/
def scraperTopLevelNames : List String :=
  ["_try_parse_date", "_http_get", "_http_post_json",
   "_api_fetch_productdraws", "_to_draw_dict_from_api",
   "_api_fetch_range_by_date", "_api_fetch_year", "_api_fetch_latest_6m",
   "_safe_ints", "_extract_8_from_ul", "_extract_8_from_near",
   "_parse_block", "_parse_html_page", "fetch_year",
   "_html_fetch_latest_6m", "fetch_latest_six_months", "sync_all"]

/-- Embeds the effective (second) definition of fetch_year (scraper.py
lines 468-476), parameterised by the records the `_api_fetch_year` chain
produced (that chain catches its own exceptions and always returns a
list).  When the list is empty the fallback expression
`_html_fetch_year(year)` is evaluated; that name is bound nowhere in the
module (see scraperTopLevelNames), so the call raises NameError. -/
def fetch_year (apiRows : List Row) : Except PyError (List Row) :=
  if apiRows.isEmpty then
    Except.error (PyError.nameError "_html_fetch_year")
  else Except.ok apiRows

/-- Embeds `_html_fetch_latest_6m` (scraper.py lines 426-462), indexed by
the depth of nested calls still allowed: apiProduct and apiPost are the
outcomes of the two API steps (none models a raised exception, caught at
lines 442-443 and 452-453), cutoff the 183-day ISO cutoff date.  Step 3
(line 457) calls `_html_fetch_latest_6m` itself, so a result none means
the call produced no value within the given nesting depth. -/
def html_fetch_latest_6m (apiProduct : Option (List Row)) (cutoff : String)
    (apiPost : Option (List Row)) : Nat → Option (List Row)
  | 0 => none
  | fuel + 1 =>
    let step23 : Option (List Row) :=
      match apiPost with
      | some rows =>
        if rows.isEmpty then html_fetch_latest_6m apiProduct cutoff apiPost fuel
        else some rows
      | none => html_fetch_latest_6m apiProduct cutoff apiPost fuel
    match apiProduct with
    | some rows =>
      if rows.isEmpty then step23
      else some (rows.filter (fun d => !strLtB d.draw_date cutoff))
    | none => step23

/-- Embeds fetch_latest_six_months (scraper.py lines 479-484): the
`_api_fetch_latest_6m` chain result, falling back to
`_html_fetch_latest_6m` when it is empty. -/
def fetch_latest_six_months (apiRows : List Row)
    (apiProduct : Option (List Row)) (cutoff : String)
    (apiPost : Option (List Row)) (fuel : Nat) : Option (List Row) :=
  if apiRows.isEmpty then html_fetch_latest_6m apiProduct cutoff apiPost fuel
  else some apiRows

/-- Mutable state of one sync_all run: the cross-batch seen-set of draw
numbers, the added_or_updated counter, the problems list, and the sequence
of upsert_draw calls issued to storage. -/
structure SyncState where
  seen : List Int
  count : Nat
  problems : List (String × String)
  ups : List Row
deriving DecidableEq

/-- The nested upsert_many of sync_all (scraper.py lines 495-503): skip
records whose draw number was already seen in this run, otherwise record
the draw number, upsert, and bump the counter. -/
def upsert_many (st : SyncState) (items : List Row) : SyncState :=
  items.foldl
    (fun s d =>
      if s.seen.contains d.draw_no then s
      else ⟨d.draw_no :: s.seen, s.count + 1, s.problems, s.ups ++ [d]⟩)
    st

/-- One scope of the sync_all loop (lines 508-521): a batch that resolved
is upserted, a batch whose resolution raised appends (scope, error) to
problems and the run continues. -/
def scope_step (st : SyncState) (scope : String)
    (res : Except String (List Row)) : SyncState :=
  match res with
  | Except.ok rows => upsert_many st rows
  | Except.error e => ⟨st.seen, st.count, st.problems ++ [(scope, e)], st.ups⟩

/-- Observable outcome of a sync_all run: the returned dict (modelled as a
key-value list), the problems collected (only logged by the source, lines
523-525), and the upserts issued. -/
structure SyncOutcome where
  result : List (String × Int)
  problems : List (String × String)
  upserts : List Row
deriving DecidableEq

/-- Embeds sync_all (scraper.py lines 487-526), parameterised by the
per-year fetch outcomes (year, fetch_year result) followed by the
fetch_latest_six_months outcome: every scope is processed in order with
one shared seen-set, and the function returns the dict
containing only the key "upserted". -/
def sync_all (yearResults : List (Int × Except String (List Row)))
    (latest : Except String (List Row)) : SyncOutcome :=
  let st1 :=
    yearResults.foldl
      (fun st yr => scope_step st ("year:" ++ toString yr.1) yr.2)
      ⟨[], 0, [], []⟩
  let st2 := scope_step st1 "latest6m" latest
  ⟨[("upserted", (st2.count : Int))], st2.problems, st2.ups⟩

/-! ### app.py: the effective compute_prediction (lines 127-209) -/

/-- Return value of the inner pick_top helper. -/
structure Pick where
  top_list : List Int
  chosen : Option Int
  top_count : Nat
deriving DecidableEq

/-- One iteration of the recency scan of pick_top (app.py lines 168-175)
over a row dict d: a candidate hits when it is in the nums list or equals
the value under the key "pb" — a key the dicts of get_draws do not carry,
they store the secondary under "powerball" — and a hitting candidate not
yet ranked is recorded with the current index (setdefault). -/
def scanStep (top : List Int) (idx : Nat) (d : List (String × PyVal))
    (rank : List (Int × Nat)) : List (Int × Nat) :=
  let nums : List Int :=
    match dictGet d "nums" with
    | some (PyVal.ivals l) => l
    | _ => []
  let pbv := dictGet d "pb"
  top.foldl
    (fun rk n =>
      if (nums.contains n ||
          (match pbv with
           | some (PyVal.int v) => v == n
           | _ => false)) &&
          !(rk.map Prod.fst).contains n
      then rk ++ [(n, idx)] else rk)
    rank

/-- The recency scan of pick_top (app.py lines 166-178): draws newest
first, early exit once every candidate is ranked. -/
def scanRank (top : List Int) :
    List (List (String × PyVal)) → Nat → List (Int × Nat) →
      List (Int × Nat)
  | [], _, rank => rank
  | d :: ds, idx, rank =>
    let rank1 := scanStep top idx d rank
    if rank1.length = top.length then rank1
    else scanRank top ds (idx + 1) rank1

/-- Ascending lexicographic order on (recency index, value) pairs, the key
of the ranked.sort call at line 186. -/
def pairLe (a b : Nat × Int) : Prop :=
  a.1 < b.1 ∨ (a.1 = b.1 ∧ a.2 ≤ b.2)

instance : DecidableRel pairLe := fun a b => by
  unfold pairLe; infer_instance

/-- Embeds the pick_top helper of the effective compute_prediction (app.py
lines 149-189): maximum count, sorted list of tied candidates, and on a
tie the recency scan followed by the (index, value) sort, a missing index
becoming the sentinel 10^9. -/
def pick_top (freq : List (Int × Nat))
    (windowDraws : List (List (String × PyVal))) : Pick :=
  match freq with
  | [] => ⟨[], none, 0⟩
  | f :: fs =>
    let items := f :: fs
    let max_count := (items.map Prod.snd).foldl Nat.max 0
    let top_list :=
      List.insertionSort ((· ≤ ·) : Int → Int → Prop)
        ((items.filter (fun p => p.2 == max_count)).map Prod.fst)
    let chosen :=
      if top_list.length = 1 then top_list.head?
      else
        let rank := scanRank top_list windowDraws 0 []
        let ranked :=
          List.insertionSort pairLe
            (top_list.map (fun n => ((rank.lookup n).getD (10 ^ 9), n)))
        ranked.head?.map Prod.snd
    ⟨top_list, chosen, max_count⟩

/-- Return value of compute_prediction, keeping the fields the claims talk
about. -/
structure Prediction where
  window : Nat
  main_top : List Int
  main_top_count : Nat
  chosen_main : Option Int
  main_freq : List (Int × Nat)
  pb_top : List Int
  pb_top_count : Nat
  chosen_pb : Option Int
  pb_freq : List (Int × Nat)
deriving DecidableEq

/-- Embeds the effective (second) compute_prediction (app.py lines
127-209): frequency tables over the window, then pick_top for the mains
domain and for the powerball domain, both scanning the same get_draws
dicts.  The source re-reads get_draws inside each pick_top call; both
reads return the same rows. -/
def compute_prediction (db : List Row) (window : Nat) : Prediction :=
  let freqs := get_frequencies db (some window)
  let windowDraws := get_draws_dicts db (some window)
  let main_pick := pick_top freqs.main windowDraws
  let pb_pick := pick_top freqs.powerball windowDraws
  ⟨window, main_pick.top_list, main_pick.top_count, main_pick.chosen,
   freqs.main, pb_pick.top_list, pb_pick.top_count, pb_pick.chosen,
   freqs.powerball⟩

/-- Modelled from the spec: the prediction tie-break for the secondary
domain — "record the index (0 = most recent) of the first draw in which it
appears (... equals the secondary ...)", then rank by recorded index
ascending with a large sentinel for a candidate never seen, then by value
ascending. -/
def spec_chosen_secondary (db : List Row) (window : Nat) : Option Int :=
  let pb_freq := (get_frequencies db (some window)).powerball
  let draws := get_draws db (some window)
  match pb_freq with
  | [] => none
  | f :: fs =>
    let items := f :: fs
    let max_count := (items.map Prod.snd).foldl Nat.max 0
    let cands :=
      List.insertionSort ((· ≤ ·) : Int → Int → Prop)
        ((items.filter (fun p => p.2 == max_count)).map Prod.fst)
    let key : Int → Nat := fun n =>
      (draws.findIdx? (fun d => d.pb == n)).getD (10 ^ 9)
    let ranked := List.insertionSort pairLe (cands.map (fun n => (key n, n)))
    ranked.head?.map Prod.snd

/-! ### app.py: compute_group_stats (lines 213-257) -/

/-- itertools.combinations on a list: all k-element sublists in the order
itertools yields them. -/
def combos : Nat → List Int → List (List Int)
  | 0, _ => [[]]
  | _ + 1, [] => []
  | k + 1, x :: xs => (combos k xs).map (fun c => x :: c) ++ combos (k + 1) xs

/-- collections.Counter update c[key] += 1 on an association list kept in
key-insertion order, as Python dicts are. -/
def counterAdd {α : Type} [BEq α] (c : List (α × Nat)) (key : α) :
    List (α × Nat) :=
  if (c.map Prod.fst).contains key then
    c.map (fun p => if p.1 == key then (p.1, p.2 + 1) else p)
  else c ++ [(key, 1)]

/-- The key order of Counter.most_common: count descending.  The sort is
stable, so entries with equal counts stay in insertion order. -/
def countGe {α : Type} (a b : α × Nat) : Prop := b.2 ≤ a.2

instance {α : Type} : DecidableRel (@countGe α) := fun a b =>
  inferInstanceAs (Decidable (b.2 ≤ a.2))

instance {α : Type} : IsTotal (α × Nat) (@countGe α) :=
  ⟨fun a b => (Nat.le_total b.2 a.2).imp (fun h => h) (fun h => h)⟩

instance {α : Type} : IsTrans (α × Nat) (@countGe α) :=
  ⟨fun _ _ _ h1 h2 => le_trans h2 h1⟩

/-- Counter.most_common(limit): stable sort by count descending, first
`limit` entries. -/
def mostCommon {α : Type} [BEq α] (limit : Nat) (c : List (α × Nat)) :
    List (α × Nat) :=
  (List.insertionSort (@countGe α) c).take limit

/-- The mains_list of compute_group_stats (app.py lines 221-227): for each
row dict of the window, the sorted first seven entries of its nums list,
kept only when at least seven are present. -/
def group_mains_list (db : List Row) (window : Nat) : List (List Int) :=
  (get_draws_dicts db (some window)).filterMap (fun d =>
    let nums : List Int :=
      match dictGet d "nums" with
      | some (PyVal.ivals l) => l
      | _ => []
    if nums.length ≥ 7 then
      some (List.insertionSort ((· ≤ ·) : Int → Int → Prop) (nums.take 7))
    else none)

/-- The Counter built for one k by compute_group_stats (lines 236-241):
draws newest first, combinations in itertools order within a draw. -/
def group_counter (db : List Row) (window : Nat) (k : Nat) :
    List (List Int × Nat) :=
  (group_mains_list db window).foldl
    (fun c nums => (combos k nums).foldl counterAdd c) []

/-- Return value of compute_group_stats. -/
structure GroupStats where
  window : Nat
  ks : List Nat
  limit : Nat
  group_top : List (Nat × List (List Int × Nat))
  powerball_top : List (Int × Nat)
  sample_size : Nat
deriving DecidableEq

/-- Embeds compute_group_stats (app.py lines 213-257).  The powerball leg
reads the key "pb" from the row dicts (line 227), which is absent — the
dicts carry "powerball" — so the isinstance check never passes and the
powerball Counter stays empty. -/
def compute_group_stats (db : List Row) (window : Nat) (ks : List Nat)
    (limit : Nat) : GroupStats :=
  let draws := get_draws_dicts db (some window)
  let powerballs :=
    draws.filterMap (fun d =>
      match dictGet d "pb" with
      | some (PyVal.int v) => some v
      | _ => none)
  let pb_counts := powerballs.foldl counterAdd []
  let top_groups :=
    ks.map (fun k => (k, mostCommon limit (group_counter db window k)))
  ⟨window, ks, limit, top_groups, mostCommon limit pb_counts,
   (group_mains_list db window).length⟩

/-- Modelled from the spec: "stable sort by count descending, then by the
combination own natural ordering" (spec wording) — combinations compared by their
component-wise (lexicographic) ascending order. -/
def comboLeB : List Int → List Int → Bool
  | [], _ => true
  | _ :: _, [] => false
  | x :: xs, y :: ys =>
    if x < y then true else if y < x then false else comboLeB xs ys

/-- Modelled from the spec: the tie-breaking order the spec prescribes for
group statistics, count descending then combination ascending. -/
def specTieRel (a b : List Int × Nat) : Prop :=
  b.2 < a.2 ∨ (a.2 = b.2 ∧ comboLeB a.1 b.1 = true)

instance : DecidableRel specTieRel := fun a b => by
  unfold specTieRel; infer_instance

/-- Modelled from the spec: the top-limit selection with the deterministic
tie-break the spec prescribes. -/
def spec_most_common (limit : Nat) (c : List (List Int × Nat)) :
    List (List Int × Nat) :=
  (List.insertionSort specTieRel c).take limit

/-! ### Concrete databases used by the claim evaluations -/

/-- Two stored draws (newest first) whose secondary frequencies tie at
{2, 3}: 3 is a main of the newest draw while 2 is its secondary. -/
def exDb2 : List Row :=
  [⟨1002, "2024-01-03", [3, 5, 6, 7, 8, 9, 10], 2, "x"⟩,
   ⟨1001, "2024-01-02", [11, 12, 13, 14, 15, 16, 17], 3, "x"⟩]

/-- The three-draw example of the spec (newest first). -/
def exDb3 : List Row :=
  [⟨3, "2024-01-03", [2, 9, 17, 23, 28, 31, 35], 10, "x"⟩,
   ⟨2, "2024-01-02", [1, 7, 12, 19, 21, 27, 33], 5, "x"⟩,
   ⟨1, "2024-01-01", [3, 6, 14, 20, 22, 30, 34], 12, "x"⟩]

/-- Two stored draws with disjoint mains: every k-combination ties at
count 1, so the top entry exposes the tie-break rule. -/
def db7 : List Row :=
  [⟨2, "2024-01-02", [8, 9, 10, 11, 12, 13, 14], 1, "x"⟩,
   ⟨1, "2024-01-01", [1, 2, 3, 4, 5, 6, 7], 1, "x"⟩]

/-- The record the API parser produces from apiDupObj. -/
def apiDupRow : Row :=
  ⟨1, "2024-01-01", [1, 1, 2, 3, 4, 5, 6], 7, "thelott-api"⟩

/-- Whether a fetch outcome was an exception. -/
def isErrB : Except String (List Row) → Bool
  | Except.error _ => true
  | Except.ok _ => false

/-- Three parsed records, two of them sharing draw number 5 with different
content; exercises the dedup of the API fetchers. -/
def w9 : List Row :=
  [⟨5, "2024-01-02", [1, 2, 3, 4, 5, 6, 7], 1, "A"⟩,
   ⟨5, "2024-01-03", [1, 2, 3, 4, 5, 6, 7], 2, "B"⟩,
   ⟨3, "2024-01-01", [1, 2, 3, 4, 5, 6, 7], 3, "C"⟩]

/-- The first record of w9 carrying draw number 5. -/
def w9a : Row := ⟨5, "2024-01-02", [1, 2, 3, 4, 5, 6, 7], 1, "A"⟩

/-- A one-row table satisfying all range invariants. -/
def db1 : List Row := [⟨1, "2024-01-01", [1, 2, 3, 4, 5, 6, 7], 1, "u"⟩]

/-! ## Theorems -/

/-! ### Soundness of the date parsers -/

theorem mkDate_sound {y m d : Nat} {dt : SimpleDate}
    (h : mkDate y m d = some dt) : validDate dt.y dt.m dt.d = true := by
  unfold mkDate at h
  split at h
  · cases h
    assumption
  · exact absurd h (by simp)

theorem parseIsoYmd_sound {s : List Char} {dt : SimpleDate}
    (h : parseIsoYmd s = some dt) : validDate dt.y dt.m dt.d = true := by
  unfold parseIsoYmd at h
  split at h
  · split at h
    · exact mkDate_sound h
    · exact Option.noConfusion h
  · exact Option.noConfusion h

theorem parseDayMonthYear_sound {tbl : List (List Char)} {comma : Bool}
    {s : List Char} {dt : SimpleDate}
    (h : parseDayMonthYear tbl comma s = some dt) :
    validDate dt.y dt.m dt.d = true := by
  unfold parseDayMonthYear at h
  split at h
  · split at h
    · split at h
      · exact mkDate_sound h
      · exact Option.noConfusion h
    · exact Option.noConfusion h
  · exact Option.noConfusion h

theorem parseWeekdayDayMonthYear_sound {dayTbl tbl : List (List Char)}
    {s : List Char} {dt : SimpleDate}
    (h : parseWeekdayDayMonthYear dayTbl tbl s = some dt) :
    validDate dt.y dt.m dt.d = true := by
  unfold parseWeekdayDayMonthYear at h
  split at h
  · split at h
    · split at h
      · exact mkDate_sound h
      · exact Option.noConfusion h
    · exact Option.noConfusion h
  · exact Option.noConfusion h

theorem firstSome_sound {l : List (Option SimpleDate)} {dt : SimpleDate}
    (h : firstSome l = some dt) : some dt ∈ l := by
  induction l with
  | nil => exact absurd h (by simp [firstSome])
  | cons x rest ih =>
    match x, h with
    | some d, h =>
      simp only [firstSome] at h
      exact List.mem_cons.mpr (Or.inl (by rw [h]))
    | none, h =>
      simp only [firstSome] at h
      exact List.mem_cons.mpr (Or.inr (ih h))

theorem try_parse_chars_sound {s : List Char} {out : String}
    (h : try_parse_date_chars s = some out) :
    ∃ dt : SimpleDate, validDate dt.y dt.m dt.d = true ∧
      out = isoOfDate dt := by
  unfold try_parse_date_chars at h
  simp only [Option.map_eq_some'] at h
  obtain ⟨dt, hdt, hout⟩ := h
  refine ⟨dt, ?_, hout.symm⟩
  have hmem := firstSome_sound hdt
  simp only [List.mem_cons, List.not_mem_nil, or_false] at hmem
  rcases hmem with h1 | h2 | h3 | h4 | h5 | h6 | h7
  · exact parseIsoYmd_sound h1.symm
  · exact parseDayMonthYear_sound h2.symm
  · exact parseDayMonthYear_sound h3.symm
  · exact parseDayMonthYear_sound h4.symm
  · exact parseDayMonthYear_sound h5.symm
  · exact parseWeekdayDayMonthYear_sound h6.symm
  · exact parseWeekdayDayMonthYear_sound h7.symm

/-- C10: for every input string, `_try_parse_date` is total — it returns
either None or an ISO-8601 rendering of a valid calendar date; every
exception of the embedded control flow (the per-format strptime
ValueErrors) is caught by the loop, so the function never raises. -/
theorem C10_total (s : String) :
    try_parse_date s = none ∨
      ∃ dt : SimpleDate, validDate dt.y dt.m dt.d = true ∧
        try_parse_date s = some (isoOfDate dt) := by
  cases h : try_parse_date s with
  | none => exact Or.inl rfl
  | some out =>
    unfold try_parse_date at h
    obtain ⟨dt, hv, hout⟩ := try_parse_chars_sound h
    exact Or.inr ⟨dt, hv, by rw [hout]⟩

/-! ### C3: parser invariants -/

theorem apiFinalize_sound {dno : Option Int} {diso : Option String}
    {main : List Int} {pb : PbField} {r : Row}
    (h : apiFinalize dno diso main pb = some r) :
    r.nums.length = 7 ∧ (∀ x ∈ r.nums, 1 ≤ x ∧ x ≤ 35) ∧
      1 ≤ r.pb ∧ r.pb ≤ 20 ∧ ∃ s, diso = some s ∧ r.draw_date = s := by
  unfold apiFinalize at h
  split at h
  · rename_i main2 pbv
    split at h
    · rename_i hguard
      rcases hdi : diso with _ | di
      · rw [hdi] at h
        rcases dno with _ | dn <;> exact Option.noConfusion h
      · rcases hdn : dno with _ | dn
        · rw [hdn, hdi] at h
          exact Option.noConfusion h
        · rw [hdn, hdi] at h
          cases h
          obtain ⟨h7, hpb1, hpb2, hall⟩ := hguard
          simp only [List.all_eq_true, Bool.and_eq_true,
            decide_eq_true_eq] at hall
          exact ⟨h7, fun x hx => hall x hx, hpb1, hpb2, di, rfl, rfl⟩
    · exact Option.noConfusion h
  · exact Option.noConfusion h

theorem to_draw_dict_sound {obj : ApiObj} {r : Row}
    (h : to_draw_dict_from_api obj = some r) :
    r.nums.length = 7 ∧ (∀ x ∈ r.nums, 1 ≤ x ∧ x ≤ 35) ∧
      1 ≤ r.pb ∧ r.pb ≤ 20 ∧
      ∃ dt : SimpleDate, validDate dt.y dt.m dt.d = true ∧
        r.draw_date = isoOfDate dt := by
  unfold to_draw_dict_from_api at h
  simp only [] at h
  split at h
  · obtain ⟨h7, hall, hpb1, hpb2, s, hs, hdate⟩ := apiFinalize_sound h
    refine ⟨h7, hall, hpb1, hpb2, ?_⟩
    rcases hraw : pyOrStr obj.drawDate (pyOrStr obj.drawDateTime obj.openDate)
      with _ | s0
    · rw [hraw] at hs
      exact Option.noConfusion hs
    · rw [hraw] at hs
      simp only [] at hs
      rcases hpre :
          try_parse_date_chars ((splitOnChar 'T' s0.data).headD s0.data)
        with _ | d0
      · rw [hpre] at hs
        obtain ⟨dt, hv, hout⟩ := try_parse_chars_sound hs
        exact ⟨dt, hv, by rw [hdate, hout]⟩
      · rw [hpre] at hs
        cases hs
        obtain ⟨dt, hv, hout⟩ := try_parse_chars_sound hpre
        exact ⟨dt, hv, by rw [hdate, hout]⟩
  · exact Option.noConfusion h

theorem blockFinalize_sound {dn : Int} {dd : String}
    {nums : Option (List Int)} {src : String} {r : Row}
    (h : blockFinalize dn dd nums src = some r) :
    r.nums.length = 7 ∧ (∀ x ∈ r.nums, 1 ≤ x ∧ x ≤ 35) ∧
      1 ≤ r.pb ∧ r.pb ≤ 20 ∧ r.draw_date = dd := by
  unfold blockFinalize at h
  split at h
  · exact Option.noConfusion h
  · rename_i ns
    split at h
    · rename_i hlen
      split at h
      · rename_i hguard
        cases h
        obtain ⟨hpb1, hpb2, hall⟩ := hguard
        simp only [List.all_eq_true, Bool.and_eq_true,
          decide_eq_true_eq] at hall
        refine ⟨?_, fun x hx => hall x hx, hpb1, hpb2, rfl⟩
        simp only [List.length_take, hlen]
        decide
      · exact Option.noConfusion h
    · exact Option.noConfusion h

theorem parse_block_sound {mNo : Option Int} {mDate : Option String}
    {ulNums : Option (List Int)} {nearCand : List Int} {src : String}
    {r : Row} (h : parse_block mNo mDate ulNums nearCand src = some r) :
    r.nums.length = 7 ∧ (∀ x ∈ r.nums, 1 ≤ x ∧ x ≤ 35) ∧
      1 ≤ r.pb ∧ r.pb ≤ 20 ∧
      ∃ dt : SimpleDate, validDate dt.y dt.m dt.d = true ∧
        r.draw_date = isoOfDate dt := by
  unfold parse_block at h
  split at h
  · exact Option.noConfusion h
  · split at h
    · exact Option.noConfusion h
    · rename_i dd hdd
      obtain ⟨h7, hall, hpb1, hpb2, hdate⟩ := blockFinalize_sound h
      refine ⟨h7, hall, hpb1, hpb2, ?_⟩
      rcases mDate with _ | s
      · exact Option.noConfusion hdd
      · obtain ⟨dt, hv, hout⟩ := try_parse_chars_sound hdd
        exact ⟨dt, hv, by rw [hdate, hout]⟩

theorem parse_rows_item_sound {dn : Int} {dateTok : String}
    {nums : List Int} {src : String} {r : Row}
    (h : parse_rows_item dn dateTok nums src = Except.ok (some r)) :
    r.nums.length = 7 ∧
      ∃ dt : SimpleDate, validDate dt.y dt.m dt.d = true ∧
        r.draw_date = isoOfDate dt := by
  unfold parse_rows_item at h
  split at h
  · exact Except.noConfusion h
  · rename_i dt hdt
    split at h
    · exact Option.noConfusion (Except.ok.inj h)
    · rename_i hlen
      have h2 := Except.ok.inj h
      cases h2
      refine ⟨?_, dt, parseDayMonthYear_sound hdt, rfl⟩
      simp only [List.length_take]
      omega

/-- C3 (amended): every record the JSON API parser or the scraper.py HTML
block parser hands to storage has exactly 7 mains each in [1,35] — not
necessarily pairwise distinct, no parser checks distinctness — a secondary
in [1,20], and a draw_date that is the ISO rendering of a valid calendar
date; a record from the scaper.py row parser is only guaranteed exactly 7
mains plus a secondary and a valid date, with no range checks at all. -/
theorem C3_amended :
    (∀ (obj : ApiObj) (r : Row), to_draw_dict_from_api obj = some r →
      r.nums.length = 7 ∧ (∀ x ∈ r.nums, 1 ≤ x ∧ x ≤ 35) ∧
        1 ≤ r.pb ∧ r.pb ≤ 20 ∧
        ∃ dt : SimpleDate, validDate dt.y dt.m dt.d = true ∧
          r.draw_date = isoOfDate dt) ∧
    (∀ (mNo : Option Int) (mDate : Option String)
        (ulNums : Option (List Int)) (nearCand : List Int) (src : String)
        (r : Row), parse_block mNo mDate ulNums nearCand src = some r →
      r.nums.length = 7 ∧ (∀ x ∈ r.nums, 1 ≤ x ∧ x ≤ 35) ∧
        1 ≤ r.pb ∧ r.pb ≤ 20 ∧
        ∃ dt : SimpleDate, validDate dt.y dt.m dt.d = true ∧
          r.draw_date = isoOfDate dt) ∧
    (∀ (dn : Int) (dateTok : String) (nums : List Int) (src : String)
        (r : Row), parse_rows_item dn dateTok nums src =
          Except.ok (some r) →
      r.nums.length = 7 ∧
        ∃ dt : SimpleDate, validDate dt.y dt.m dt.d = true ∧
          r.draw_date = isoOfDate dt) :=
  ⟨fun _ _ h => to_draw_dict_sound h,
   fun _ _ _ _ _ _ h => parse_block_sound h,
   fun _ _ _ _ _ h => parse_rows_item_sound h⟩

/-- C3 (counterexample): the claim as stated fails twice on the code — the
JSON API parser passes a record with a duplicated main through to storage
unchanged, and the scaper.py row parser passes a record whose secondary is
99, far outside [1,20]. -/
theorem C3_counterexample :
    to_draw_dict_from_api apiDupObj =
        some ⟨1, "2024-01-01", [1, 1, 2, 3, 4, 5, 6], 7, "thelott-api"⟩ ∧
      ¬ ([1, 1, 2, 3, 4, 5, 6] : List Int).Nodup ∧
      parse_rows_item 100 "12 October, 2024" [1, 2, 3, 4, 5, 6, 7, 99]
          "u" =
        Except.ok
          (some ⟨100, "2024-10-12", [1, 2, 3, 4, 5, 6, 7], 99, "u"⟩) ∧
      ¬ (1 ≤ (99 : Int) ∧ (99 : Int) ≤ 20) := by
  refine ⟨by decide, by decide, by decide, by decide⟩

/-- C3 (witness): the amended guarantees instantiated at the concrete API
object apiDupObj. -/
theorem C3_witness :
    apiDupRow.nums.length = 7 ∧
      (∀ x ∈ apiDupRow.nums, 1 ≤ x ∧ x ≤ 35) ∧
      1 ≤ apiDupRow.pb ∧ apiDupRow.pb ≤ 20 ∧
      ∃ dt : SimpleDate, validDate dt.y dt.m dt.d = true ∧
        apiDupRow.draw_date = isoOfDate dt :=
  C3_amended.1 apiDupObj apiDupRow (by decide)

/-! ### C4 and C5: the resolution chain -/

theorem html6m_no_value (cutoff : String) (fuel : Nat) :
    html_fetch_latest_6m none cutoff none fuel = none ∧
      html_fetch_latest_6m (some []) cutoff none fuel = none ∧
      html_fetch_latest_6m none cutoff (some []) fuel = none ∧
      html_fetch_latest_6m (some []) cutoff (some []) fuel = none := by
  induction fuel with
  | zero => exact ⟨rfl, rfl, rfl, rfl⟩
  | succ n ih =>
    refine ⟨?_, ?_, ?_, ?_⟩ <;>
      simp [html_fetch_latest_6m, ih.1, ih.2.1, ih.2.2.1, ih.2.2.2]

/-- C4: when the API chain of the effective fetch_year yields no rows the
caller does not receive an empty list — the fallback references
`_html_fetch_year`, a name bound nowhere in scraper.py, so the call raises
NameError; and fetch_latest_six_months, whose fallback is the
self-recursive `_html_fetch_latest_6m`, produces no value at any recursion
depth when both API steps raise or yield no rows. -/
theorem C4_eval :
    fetch_year [] = Except.error (PyError.nameError "_html_fetch_year") ∧
      "_html_fetch_year" ∉ scraperTopLevelNames ∧
      ∀ (cutoff : String) (fuel : Nat),
        fetch_latest_six_months [] none cutoff none fuel = none := by
  refine ⟨rfl, by decide, fun cutoff fuel => ?_⟩
  simpa [fetch_latest_six_months] using (html6m_no_value cutoff fuel).1

/-- C5: the trailing-six-months resolution chain does not terminate on
every input — whenever the two API steps of `_html_fetch_latest_6m` raise
(none) or return no rows (some []), the step-3 self-recursion produces no
value within any finite nesting depth, in every combination of the two
failure modes. -/
theorem C5_divergence :
    ∀ (cutoff : String) (fuel : Nat),
      html_fetch_latest_6m none cutoff none fuel = none ∧
        html_fetch_latest_6m (some []) cutoff none fuel = none ∧
        html_fetch_latest_6m none cutoff (some []) fuel = none ∧
        html_fetch_latest_6m (some []) cutoff (some []) fuel = none :=
  fun cutoff fuel => html6m_no_value cutoff fuel

/-! ### C1: the sync orchestrator -/

theorem upsert_many_problems (items : List Row) (st : SyncState) :
    (upsert_many st items).problems = st.problems := by
  induction items generalizing st with
  | nil => rfl
  | cons d items ih =>
    unfold upsert_many at ih ⊢
    simp only [List.foldl_cons]
    split <;> exact ih _

theorem upsert_many_count (items : List Row) (st : SyncState)
    (h : st.count = st.ups.length) :
    (upsert_many st items).count = (upsert_many st items).ups.length := by
  induction items generalizing st with
  | nil => exact h
  | cons d items ih =>
    unfold upsert_many at ih ⊢
    simp only [List.foldl_cons]
    split
    · exact ih st h
    · exact ih _ (by simp [h])

theorem scope_step_problems (st : SyncState) (sc : String)
    (res : Except String (List Row)) :
    (scope_step st sc res).problems.length =
      st.problems.length + (if isErrB res then 1 else 0) := by
  unfold scope_step
  match res with
  | Except.ok rows => simp [isErrB, upsert_many_problems]
  | Except.error e => simp [isErrB]

theorem scope_step_count (st : SyncState) (sc : String)
    (res : Except String (List Row)) (h : st.count = st.ups.length) :
    (scope_step st sc res).count = (scope_step st sc res).ups.length := by
  unfold scope_step
  match res with
  | Except.ok rows => exact upsert_many_count rows st h
  | Except.error e => exact h

theorem sync_fold_inv (l : List (Int × Except String (List Row)))
    (st : SyncState) (h : st.count = st.ups.length) :
    (l.foldl (fun st yr => scope_step st ("year:" ++ toString yr.1) yr.2)
        st).count =
      (l.foldl (fun st yr => scope_step st ("year:" ++ toString yr.1) yr.2)
        st).ups.length ∧
    (l.foldl (fun st yr => scope_step st ("year:" ++ toString yr.1) yr.2)
        st).problems.length =
      st.problems.length + (l.filter (fun yr => isErrB yr.2)).length := by
  induction l generalizing st with
  | nil => exact ⟨h, by simp⟩
  | cons yr l ih =>
    simp only [List.foldl_cons]
    have h1 := scope_step_count st ("year:" ++ toString yr.1) yr.2 h
    obtain ⟨ha, hb⟩ := ih (scope_step st ("year:" ++ toString yr.1) yr.2) h1
    refine ⟨ha, ?_⟩
    rw [hb, scope_step_problems]
    rcases hres : yr.2 with e | rows
    · simp [isErrB, hres, List.filter_cons]
      omega
    · simp [isErrB, hres, List.filter_cons]

/-- C1 (amended): sync_all always returns normally on per-scope failures,
but the returned dict contains only the key "upserted" with the number of
upsert calls made; the per-scope problems — one entry per failed scope —
are collected and logged, not returned. -/
theorem C1_amended (yearResults : List (Int × Except String (List Row)))
    (latest : Except String (List Row)) :
    (sync_all yearResults latest).result =
        [("upserted",
          ((sync_all yearResults latest).upserts.length : Int))] ∧
      (sync_all yearResults latest).result.map Prod.fst = ["upserted"] ∧
      (sync_all yearResults latest).problems.length =
        (yearResults.filter (fun yr => isErrB yr.2)).length +
          (if isErrB latest then 1 else 0) := by
  obtain ⟨ha, hb⟩ := sync_fold_inv yearResults ⟨[], 0, [], []⟩ rfl
  unfold sync_all
  simp only []
  refine ⟨?_, rfl, ?_⟩
  · have hc := scope_step_count
      (yearResults.foldl
        (fun st yr => scope_step st ("year:" ++ toString yr.1) yr.2)
        ⟨[], 0, [], []⟩) "latest6m" latest ha
    rw [hc]
  · rw [scope_step_problems, hb]
    simp

/-- C1 (counterexample): with one failed year the run records a problem,
yet the returned dict has no "problems" entry — its only key is
"upserted" — refuting the claim that the sync result object contains the
problem list. -/
theorem C1_counterexample :
    (sync_all [((2018 : Int), Except.error "boom")]
        (Except.ok [])).problems ≠ [] ∧
      (sync_all [((2018 : Int), Except.error "boom")]
          (Except.ok [])).result.map Prod.fst = ["upserted"] ∧
      "problems" ∉
        (sync_all [((2018 : Int), Except.error "boom")]
            (Except.ok [])).result.map Prod.fst := by
  refine ⟨by decide, by decide, by decide⟩

/-! ### C6: frequency tables -/

theorem intRange_nodup (a n : Nat) : (intRange a n).Nodup := by
  unfold intRange
  refine List.Nodup.map ?_ (List.nodup_range' a n 1)
  intro x y h
  simpa using h

theorem mem_intRange {a n : Nat} {x : Int} (h1 : (a : Int) ≤ x)
    (h2 : x < (a : Int) + n) : x ∈ intRange a n := by
  unfold intRange
  refine List.mem_map.mpr ⟨x.toNat, ?_, ?_⟩
  · rw [List.mem_range'_1]
    omega
  · exact_mod_cast Int.toNat_of_nonneg (by omega)

theorem sum_map_add {α : Type} (f g : α → Nat) (l : List α) :
    (l.map (fun a => f a + g a)).sum = (l.map f).sum + (l.map g).sum := by
  induction l with
  | nil => rfl
  | cons x l ih => simp only [List.map_cons, List.sum_cons, ih]; omega

theorem sum_map_indicator_zero {keys : List Int} {x : Int}
    (hx : x ∉ keys) :
    (keys.map (fun n => if n = x then 1 else 0)).sum = 0 := by
  induction keys with
  | nil => rfl
  | cons k ks ih =>
    have hk : k ≠ x := fun h => hx (h ▸ List.mem_cons_self k ks)
    simp only [List.map_cons, List.sum_cons, if_neg hk, Nat.zero_add]
    exact ih (fun h => hx (List.mem_cons_of_mem _ h))

theorem sum_map_indicator {keys : List Int} {x : Int} (hnd : keys.Nodup)
    (hx : x ∈ keys) :
    (keys.map (fun n => if n = x then 1 else 0)).sum = 1 := by
  induction keys with
  | nil => cases hx
  | cons k ks ih =>
    obtain ⟨hknot, hnd2⟩ := List.nodup_cons.mp hnd
    rcases List.mem_cons.mp hx with rfl | hx2
    · simp [List.map_cons, List.sum_cons, sum_map_indicator_zero hknot]
    · have hk : k ≠ x := fun h => hknot (h ▸ hx2)
      simp only [List.map_cons, List.sum_cons, if_neg hk, Nat.zero_add]
      exact ih hnd2 hx2

theorem sum_counts {keys L : List Int} (hnd : keys.Nodup)
    (h : ∀ x ∈ L, x ∈ keys) :
    (keys.map (fun n => L.count n)).sum = L.length := by
  induction L with
  | nil => simp
  | cons x L ih =>
    have hx := h x (List.mem_cons_self x L)
    have hL : ∀ y ∈ L, y ∈ keys := fun y hy =>
      h y (List.mem_cons_of_mem _ hy)
    have hcount : ∀ n : Int, (x :: L).count n = L.count n +
        (if n = x then 1 else 0) := by
      intro n
      rw [List.count_cons]
      by_cases hxn : n = x
      · simp [hxn]
      · have hnx : ¬(x = n) := fun hh => hxn hh.symm
        simp [hxn, hnx]
    calc (keys.map fun n => (x :: L).count n).sum
        = (keys.map fun n => L.count n + if n = x then 1 else 0).sum := by
          rw [List.map_congr_left (fun a _ => hcount a)]
      _ = (keys.map fun n => L.count n).sum +
            (keys.map fun n => if n = x then 1 else 0).sum :=
          sum_map_add _ _ keys
      _ = L.length + 1 := by rw [ih hL, sum_map_indicator hnd hx]
      _ = (x :: L).length := by simp

theorem freq_keys (rows : List Row) :
    (freqTableOf rows).main.map Prod.fst = intRange 1 35 ∧
      (freqTableOf rows).powerball.map Prod.fst = intRange 1 20 := by
  constructor <;> simp [freqTableOf, List.map_map, Function.comp_def]

theorem freq_sums {rows : List Row}
    (h : ∀ r ∈ rows, r.nums.length = 7 ∧
      (∀ x ∈ r.nums, 1 ≤ x ∧ x ≤ 35) ∧ 1 ≤ r.pb ∧ r.pb ≤ 20) :
    ((freqTableOf rows).main.map Prod.snd).sum =
        7 * (freqTableOf rows).sample_size ∧
      ((freqTableOf rows).powerball.map Prod.snd).sum =
        (freqTableOf rows).sample_size := by
  constructor
  · have hmem : ∀ x ∈ (rows.map Row.nums).flatten, x ∈ intRange 1 35 := by
      intro x hx
      obtain ⟨l, hl, hxl⟩ := List.mem_flatten.mp hx
      obtain ⟨r, hr, rfl⟩ := List.mem_map.mp hl
      obtain ⟨hx1, hx2⟩ := (h r hr).2.1 x hxl
      exact mem_intRange (by exact_mod_cast hx1) (by omega)
    have hsum := sum_counts (intRange_nodup 1 35) hmem
    have hlen : (rows.map Row.nums).flatten.length = 7 * rows.length := by
      rw [List.length_flatten]
      have : (rows.map Row.nums).map List.length =
          rows.map (fun _ => 7) := by
        rw [List.map_map]
        exact List.map_congr_left (fun r hr => (h r hr).1)
      rw [this]
      have : rows.map (fun _ => (7 : Nat)) =
          List.replicate rows.length 7 := List.map_const' rows 7
      rw [this, List.sum_replicate, smul_eq_mul]
      omega
    simp only [freqTableOf, List.map_map]
    calc ((intRange 1 35).map
          (Prod.snd ∘ fun n => (n, (rows.map Row.nums).flatten.count n))).sum
        = ((intRange 1 35).map
            (fun n => (rows.map Row.nums).flatten.count n)).sum := rfl
      _ = (rows.map Row.nums).flatten.length := hsum
      _ = 7 * rows.length := hlen
  · have hmem : ∀ x ∈ rows.map Row.pb, x ∈ intRange 1 20 := by
      intro x hx
      obtain ⟨r, hr, rfl⟩ := List.mem_map.mp hx
      obtain ⟨hx1, hx2⟩ := (h r hr).2.2
      exact mem_intRange (by exact_mod_cast hx1) (by omega)
    have hsum := sum_counts (intRange_nodup 1 20) hmem
    simp only [freqTableOf, List.map_map]
    calc ((intRange 1 20).map
          (Prod.snd ∘ fun n => (n, (rows.map Row.pb).count n))).sum
        = ((intRange 1 20).map (fun n => (rows.map Row.pb).count n)).sum :=
          rfl
      _ = (rows.map Row.pb).length := hsum
      _ = rows.length := List.length_map rows Row.pb

/-- C6: for every window (and the unspecified-window case) the mains map
of get_frequencies has key set exactly 1..35 and the powerball map key set
exactly 1..20, zero-count values included; and when every stored record
satisfies the range invariants, the mains counts sum to 7 times the
returned sample_size and the powerball counts sum to the sample_size. -/
theorem C6_freq (db : List Row) (w : Option Nat) :
    (get_frequencies db w).main.map Prod.fst = intRange 1 35 ∧
      (get_frequencies db w).powerball.map Prod.fst = intRange 1 20 ∧
      ((∀ r ∈ db, r.nums.length = 7 ∧ r.nums.Nodup ∧
          (∀ x ∈ r.nums, 1 ≤ x ∧ x ≤ 35) ∧ 1 ≤ r.pb ∧ r.pb ≤ 20) →
        ((get_frequencies db w).main.map Prod.snd).sum =
            7 * (get_frequencies db w).sample_size ∧
          ((get_frequencies db w).powerball.map Prod.snd).sum =
            (get_frequencies db w).sample_size) := by
  obtain ⟨rows, heq, hsub⟩ :
      ∃ rows, get_frequencies db w = freqTableOf rows ∧
        ∀ r ∈ rows, r ∈ db := by
    match w with
    | none => exact ⟨db, rfl, fun r hr => hr⟩
    | some v =>
      by_cases h0 : v = 0
      · exact ⟨db, by simp [get_frequencies, h0], fun r hr => hr⟩
      · refine ⟨db.filter (fun r =>
          ((get_draws db (some v)).map Row.draw_no).contains r.draw_no),
          by simp [get_frequencies, h0], fun r hr => (List.mem_filter.mp hr).1⟩
  rw [heq]
  refine ⟨(freq_keys rows).1, (freq_keys rows).2, fun hinv => ?_⟩
  exact freq_sums (fun r hr =>
    ⟨(hinv r (hsub r hr)).1, (hinv r (hsub r hr)).2.2.1,
     (hinv r (hsub r hr)).2.2.2⟩)

/-- C6 (witness): the frequency sums instantiated at the one-row table
db1 with no window, the invariants discharged by evaluation. -/
theorem C6_witness :
    ((get_frequencies db1 none).main.map Prod.snd).sum =
        7 * (get_frequencies db1 none).sample_size ∧
      ((get_frequencies db1 none).powerball.map Prod.snd).sum =
        (get_frequencies db1 none).sample_size :=
  (C6_freq db1 none).2.2 (by decide)

/-! ### C7: group statistics -/

theorem mostCommon_facts {α : Type} [BEq α] (limit : Nat)
    (c : List (α × Nat)) :
    ((mostCommon limit c).map Prod.snd).Pairwise (fun a b => b ≤ a) ∧
      (mostCommon limit c).length = min limit c.length ∧
      (∀ t ∈ mostCommon limit c, t ∈ c) ∧
      (∀ p ∈ c, p ∉ mostCommon limit c →
        ∀ t ∈ mostCommon limit c, p.2 ≤ t.2) := by
  have hsorted : (List.insertionSort (@countGe α) c).Pairwise (@countGe α) :=
    List.sorted_insertionSort (@countGe α) c
  have hperm : List.Perm (List.insertionSort (@countGe α) c) c :=
    List.perm_insertionSort (@countGe α) c
  refine ⟨?_, ?_, ?_, ?_⟩
  · refine List.pairwise_map.mpr ?_
    exact (hsorted.sublist (List.take_sublist limit _)).imp (fun h => h)
  · unfold mostCommon
    rw [List.length_take, hperm.length_eq]
  · intro t ht
    exact hperm.mem_iff.mp ((List.take_sublist limit _).mem ht)
  · intro p hp hnot t ht
    have hmemsorted : p ∈ List.insertionSort (@countGe α) c :=
      hperm.mem_iff.mpr hp
    rw [← List.take_append_drop limit (List.insertionSort (@countGe α) c)]
      at hmemsorted
    rcases List.mem_append.mp hmemsorted with hin | hdrop
    · exact absurd hin hnot
    · have hp2 := List.pairwise_append.mp
        (by rw [List.take_append_drop limit]; exact hsorted)
      exact hp2.2.2 t ht p hdrop

/-- C7 (amended): for every window, requested k and limit, the per-k list
returned by compute_group_stats is the limit highest-count combinations in
count-descending order — any combination left out counts no more than any
one returned — but ties between equal counts keep Counter insertion order
(first encounter scanning draws newest to oldest), not the natural
component-wise order of the combination. -/
theorem C7_amended (db : List Row) (window : Nat) (ks : List Nat)
    (limit : Nat) (k : Nat) (top : List (List Int × Nat))
    (hmem : (k, top) ∈ (compute_group_stats db window ks limit).group_top) :
    (top.map Prod.snd).Pairwise (fun a b => b ≤ a) ∧
      top.length = min limit (group_counter db window k).length ∧
      (∀ t ∈ top, t ∈ group_counter db window k) ∧
      (∀ p ∈ group_counter db window k, p ∉ top →
        ∀ t ∈ top, p.2 ≤ t.2) := by
  have htop : top = mostCommon limit (group_counter db window k) := by
    simp only [compute_group_stats, List.mem_map] at hmem
    obtain ⟨k0, hk0, heq⟩ := hmem
    obtain ⟨h1, h2⟩ := Prod.mk.injEq .. ▸ heq
    exact h2.symm.trans (by rw [h1])
  subst htop
  exact mostCommon_facts limit (group_counter db window k)

/-- C7 (counterexample): with two stored draws carrying disjoint mains
every 6-combination ties at count 1; compute_group_stats returns the
combination of the newest draw, [8,9,10,11,12,13], while the tie-break the
claim prescribes — the natural ordering of the combinations — selects
[1,2,3,4,5,6]; so ties are not broken by combination order. -/
theorem C7_counterexample :
    (compute_group_stats db7 2 [6] 1).group_top =
        [(6, [([8, 9, 10, 11, 12, 13], 1)])] ∧
      spec_most_common 1 (group_counter db7 2 6) =
        [([1, 2, 3, 4, 5, 6], 1)] ∧
      ([8, 9, 10, 11, 12, 13] : List Int) ≠ [1, 2, 3, 4, 5, 6] := by
  refine ⟨by decide, by decide, by decide⟩

/-- C7 (witness): the amended guarantees instantiated at db7 with k = 6
and limit 1, the membership hypothesis discharged by evaluation. -/
theorem C7_witness :
    (([([8, 9, 10, 11, 12, 13], 1)] : List (List Int × Nat)).map
        Prod.snd).Pairwise (fun a b => b ≤ a) ∧
      ([([8, 9, 10, 11, 12, 13], 1)] : List (List Int × Nat)).length =
        min 1 (group_counter db7 2 6).length :=
  ⟨(C7_amended db7 2 [6] 1 6 [([8, 9, 10, 11, 12, 13], 1)] (by decide)).1,
   (C7_amended db7 2 [6] 1 6 [([8, 9, 10, 11, 12, 13], 1)] (by decide)).2.1⟩

/-! ### C8: the fetch helper -/

/-- C8 (amended): the complete behaviour of `_http_get` — at most three
attempts, success returns immediately with no further sleep, a sleep
happens only between attempts following the linear schedule
RETRY_BACKOFF * attempt (3 then 6 time-units, not an exponential series),
and after three failures the last error is re-raised. -/
theorem C8_amended (o : Nat → FetchOutcome) :
    http_get o = http_get_table (o 1) (o 2) (o 3) := by
  cases h1 : o 1 <;> cases h2 : o 2 <;> cases h3 : o 3 <;>
    simp [http_get, http_get_loop, http_get_table, h1, h2, h3]

/-- C8 (counterexample): on a URL whose every attempt fails, the sleep
schedule issued is [3, 6] — linear in the attempt index — which differs
from the attempt-indexed exponential schedule with base 3 the claim
describes, [3, 9]. -/
theorem C8_counterexample :
    (http_get (fun _ => FetchOutcome.err "connection refused")).1 =
        [3, 6] ∧
      (http_get (fun _ => FetchOutcome.err "connection refused")).1 ≠
        exp_backoff_sleeps 3 2 := by
  refine ⟨by decide, by decide⟩

/-! ### C9: sort-and-dedup of the API fetchers -/

theorem dedupGo_sublist (l : List Row) (seen : List Int) :
    (dedupGo seen l).Sublist l := by
  induction l generalizing seen with
  | nil => exact List.Sublist.refl []
  | cons x xs ih =>
    unfold dedupGo
    split
    · exact (ih seen).trans (List.sublist_cons_self x xs)
    · exact (ih (x.draw_no :: seen)).cons₂ x

theorem dedupGo_nodup (l : List Row) (seen : List Int) :
    ((dedupGo seen l).map Row.draw_no).Nodup ∧
      ∀ d ∈ (dedupGo seen l).map Row.draw_no, d ∉ seen := by
  induction l generalizing seen with
  | nil => exact ⟨List.nodup_nil, by simp [dedupGo]⟩
  | cons x xs ih =>
    unfold dedupGo
    split
    · exact ih seen
    · rename_i hnot
      obtain ⟨hnd, hfresh⟩ := ih (x.draw_no :: seen)
      have hxf : ∀ d ∈ (dedupGo (x.draw_no :: seen) xs).map Row.draw_no,
          d ≠ x.draw_no := fun d hd he =>
        hfresh d hd (he ▸ List.mem_cons_self _ _)
      refine ⟨List.nodup_cons.mpr ⟨fun hmem => hxf _ hmem rfl, hnd⟩, ?_⟩
      intro d hd
      rcases List.mem_cons.mp hd with rfl | hd2
      · simpa using hnot
      · exact fun hseen =>
          hfresh d hd2 (List.mem_cons_of_mem _ hseen)

theorem dedupGo_find (l : List Row) (seen : List Int) (r : Row)
    (hr : r ∈ dedupGo seen l) :
    r.draw_no ∉ seen ∧
      l.find? (fun x => x.draw_no == r.draw_no) = some r := by
  induction l generalizing seen with
  | nil => exact absurd hr (by simp [dedupGo])
  | cons x xs ih =>
    unfold dedupGo at hr
    by_cases hseen : seen.contains x.draw_no
    · rw [if_pos hseen] at hr
      obtain ⟨hnot, hfind⟩ := ih seen hr
      have hx : x.draw_no ≠ r.draw_no := by
        intro he
        exact hnot (he ▸ (List.mem_of_elem_eq_true hseen))
      refine ⟨hnot, ?_⟩
      rw [List.find?_cons_of_neg, hfind]
      simp [hx]
    · rw [if_neg hseen] at hr
      rcases List.mem_cons.mp hr with rfl | hr2
      · refine ⟨fun hmem => hseen (List.elem_eq_true_of_mem hmem), ?_⟩
        rw [List.find?_cons_of_pos]
        simp
      · obtain ⟨hnot, hfind⟩ := ih (x.draw_no :: seen) hr2
        have hx : x.draw_no ≠ r.draw_no := fun he =>
          hnot (he ▸ List.mem_cons_self _ _)
        refine ⟨fun hmem => hnot (List.mem_cons_of_mem _ hmem), ?_⟩
        rw [List.find?_cons_of_neg, hfind]
        simp [hx]

theorem dedupGo_covers (l : List Row) (seen : List Int) (r : Row)
    (hr : r ∈ l) :
    r.draw_no ∈ (dedupGo seen l).map Row.draw_no ∨ r.draw_no ∈ seen := by
  induction l generalizing seen with
  | nil => cases hr
  | cons x xs ih =>
    unfold dedupGo
    by_cases hseen : seen.contains x.draw_no
    · rw [if_pos hseen]
      rcases List.mem_cons.mp hr with rfl | hr2
      · exact Or.inr (List.mem_of_elem_eq_true hseen)
      · exact ih seen hr2
    · rw [if_neg hseen]
      rcases List.mem_cons.mp hr with rfl | hr2
      · exact Or.inl (by rw [List.map_cons]; exact List.mem_cons_self _ _)
      · rcases ih (x.draw_no :: seen) hr2 with hin | hseen2
        · exact Or.inl (by rw [List.map_cons]; exact List.mem_cons_of_mem _ hin)
        · rcases List.mem_cons.mp hseen2 with he | hs
          · exact Or.inl (by rw [List.map_cons, he]; exact List.mem_cons_self _ _)
          · exact Or.inr hs

theorem sort_dedup_sorted (items : List Row) :
    ((sort_dedup_by_draw_no items).map Row.draw_no).Pairwise (· < ·) := by
  have hsorted : (List.insertionSort drawNoLe items).Pairwise drawNoLe :=
    List.sorted_insertionSort drawNoLe items
  have hle : (sort_dedup_by_draw_no items).Pairwise drawNoLe :=
    hsorted.sublist (dedupGo_sublist _ [])
  have hlemap : ((sort_dedup_by_draw_no items).map Row.draw_no).Pairwise
      (· ≤ ·) := List.pairwise_map.mpr (hle.imp (fun h => h))
  have hnd : ((sort_dedup_by_draw_no items).map Row.draw_no).Nodup :=
    (dedupGo_nodup (List.insertionSort drawNoLe items) []).1
  exact (hlemap.and hnd).imp (fun h => lt_of_le_of_ne h.1 h.2)

/-- C9: the postprocessing shared by `_api_fetch_range_by_date` and
`_api_fetch_productdraws` returns records with pairwise distinct draw
numbers in strictly ascending draw_no order, keeps for each draw number
exactly the first record of the stable ascending sort, and represents
every input draw number. -/
theorem C9_sorted_dedup (items : List Row) :
    ((api_fetch_range_post items).map Row.draw_no).Pairwise (· < ·) ∧
      (∀ r ∈ api_fetch_range_post items,
        (List.insertionSort drawNoLe items).find?
          (fun x => x.draw_no == r.draw_no) = some r) ∧
      (∀ r ∈ items, ∃ q ∈ api_fetch_range_post items,
        q.draw_no = r.draw_no) ∧
      api_fetch_productdraws_post items = api_fetch_range_post items := by
  refine ⟨sort_dedup_sorted items, ?_, ?_, rfl⟩
  · intro r hr
    exact (dedupGo_find (List.insertionSort drawNoLe items) [] r hr).2
  · intro r hr
    have hmem : r ∈ List.insertionSort drawNoLe items :=
      (List.perm_insertionSort drawNoLe items).mem_iff.mpr hr
    rcases dedupGo_covers (List.insertionSort drawNoLe items) [] r hmem
      with hin | habs
    · obtain ⟨q, hq, he⟩ := List.mem_map.mp hin
      exact ⟨q, hq, he⟩
    · cases habs
  
/-- C9 (witness): the first-kept and coverage guarantees instantiated at
the concrete item list w9, whose two records share draw number 5. -/
theorem C9_witness :
    (List.insertionSort drawNoLe w9).find?
        (fun x => x.draw_no == w9a.draw_no) = some w9a ∧
      ∃ q ∈ api_fetch_range_post w9, q.draw_no = w9a.draw_no :=
  ⟨(C9_sorted_dedup w9).2.1 w9a (by decide),
   (C9_sorted_dedup w9).2.2.1 w9a (by decide)⟩

/-! ### C2: the prediction tie-break -/

/-- C2: evaluation at the failing input.  The two-draw database exDb2 ties
the secondary candidates at {2, 3}; the claim requires the recency test to
use equality with the secondary of the draw, which selects 2 (the newest
draw has powerball 2), but compute_prediction selects 3: the scan reads "pb"
from the row dicts, which carry the secondary under "powerball", so the
equality test never fires and a secondary candidate is ranked by
membership in the mains of the draws instead.  The mains-domain behaviour
matches the claim: on the three-draw example of the spec the chosen main is
2. -/
theorem C2_eval :
    (compute_prediction exDb2 2).chosen_pb = some 3 ∧
      spec_chosen_secondary exDb2 2 = some 2 ∧
      (compute_prediction exDb2 2).chosen_pb ≠
        spec_chosen_secondary exDb2 2 ∧
      (compute_prediction exDb3 3).chosen_main = some 2 := by
  refine ⟨by decide, by decide, by decide, by decide⟩
